import Mathlib

/-!
Shallow embedding of the agent_suite repository's core components
(src/agents/memory.py, src/agents/memory_stores/mem_store.py,
src/agents/prompt.py, src/agents/agent.py, src/agents/react_agent.py,
src/tools/tool.py), together with theorems settling the frozen claims.

Conventions of the embedding:
- Python dict messages become the `Message` structure with `Option` fields
  recording key presence (`"role" in message` becomes `role.isSome`).
- Python exceptions become `Except` results; `PyErr` covers the exception
  kinds the claims touch (KeyError / ValueError from `str.format`,
  UnboundLocalError, and opaque backend / tool exceptions).
- Python `str.format(**vars)` is modelled by a left-to-right scanner
  (`substGo`) over the character list; it is faithful for format strings
  whose replacement fields are simple keyword names (letters/underscore:
  no conversion, format-spec, attribute or index parts), which covers all
  inputs used in the theorems below.
- The LLM backend is modelled as a finite script of outcomes consumed one
  per invocation; an exhausted script models a failing invocation.
-/

namespace AgentSuite

/-- The character U+007B, written numerically. -/
def lbrace : Char := Char.ofNat 123

/-- The character U+007D, written numerically. -/
def rbrace : Char := Char.ofNat 125

/-- A single-quote character as a one-character string (used by Python
`repr` renderings). -/
def squote : String := String.mk [Char.ofNat 39]

/-- Errors raised by Python `str.format`. -/
inductive FmtErr where
  | keyError : String → FmtErr
  | valueError : String → FmtErr
deriving DecidableEq

/-- Python exceptions relevant to the embedded code paths. -/
inductive PyErr where
  | fmt : FmtErr → PyErr
  | unboundLocal : PyErr
  | exc : String → PyErr
deriving DecidableEq

/-- The `function` payload of a tool call in an LLM response
(`tool_call.function.name`, `tool_call.function.arguments`). -/
structure ToolCallFunction where
  name : String
  arguments : List (String × String)
deriving DecidableEq

/-- One tool-call request carried by an LLM response. -/
structure ToolCall where
  function : ToolCallFunction
deriving DecidableEq

/-- A structured chat-completion response: `content` plus a (possibly
empty) list of tool-call requests. -/
structure LLMResponse where
  content : String
  tool_calls : List ToolCall
deriving DecidableEq

/-- A dynamically-typed Python value as it appears in message `content`
fields: either a string or a structured response object (Agent.aprocess
stores the whole response object as the assistant content). -/
inductive Val where
  | vstr : String → Val
  | vresp : LLMResponse → Val
deriving DecidableEq

/-- A conversation message: a Python dict whose `role` / `content` /
`tool_calls` keys may each be absent (`none`). -/
structure Message where
  role : Option String
  content : Option Val
  tool_calls : Option (List ToolCall)
deriving DecidableEq

/-! ### Memory (src/agents/memory_stores/mem_store.py, src/agents/memory.py) -/

/-- `MemoryStore.add_history`: append the message iff it carries both a
`role` and a `content` key; malformed messages are silently dropped. -/
def add_history (message : Message) (history : List Message) : List Message :=
  if message.role.isSome && message.content.isSome then history ++ [message] else history

/-- Python suffix slice `xs[-limit:]` for an integer `limit`.  A positive
`limit` keeps the last `limit` elements; `limit = 0` yields `xs[0:]`, the
whole list; a negative `limit` yields `xs[(-limit):]`. -/
def pySliceLast {α : Type} (xs : List α) (limit : Int) : List α :=
  if 0 < limit then xs.drop ((xs.length : Int) - limit).toNat
  else xs.drop ((-limit).toNat)

/-- `MemoryStore.get_history(limit=20)`: returns `self.history[-limit:]`. -/
def store_get_history (history : List Message) (limit : Int) : List Message :=
  pySliceLast history limit

/-- `MemoryManager.add`: append via the store, then re-read the history
through `store.get_history()` (default `limit=20`), and if that view is
longer than `max_history`, clear the store and re-add the view's tail. -/
def mm_add (max_history : Nat) (history : List Message) (message : Message) : List Message :=
  let h1 := add_history message history
  let view := store_get_history h1 20
  if view.length > max_history then
    (view.drop 1).foldl (fun acc m => add_history m acc) []
  else h1

/-- `MemoryManager.get_history(limit=20)`: delegates to the store. -/
def mm_get_history (history : List Message) (limit : Int) : List Message :=
  store_get_history history limit

/-! ### Python `str.format` (used by src/agents/prompt.py) -/

/-- Python message of `ValueError: Single brace encountered in format string`. -/
def singleRbraceMsg : String :=
  "Single " ++ squote ++ "\x7d" ++ squote ++ " encountered in format string"

/-- Python message for an unterminated replacement field. -/
def endOfStringMsg : String :=
  "expected " ++ squote ++ "\x7d" ++ squote ++ " before end of string"

/-- Python message for a nested opening brace inside a field name. -/
def unexpectedLbraceMsg : String :=
  "unexpected " ++ squote ++ "\x7b" ++ squote ++ " in field name"

/-- Scanner state for `substGo`: plain text, just after an opening brace,
just after a closing brace, or inside a replacement field carrying the
(reversed) accumulated field name. -/
inductive FmtMode where
  | text : FmtMode
  | sawL : FmtMode
  | sawR : FmtMode
  | field : List Char → FmtMode

/-- One-pass model of Python `str.format(**vars)` over a character list:
doubled braces escape, a replacement field is looked up in `vars`
(KeyError when absent), and stray or unterminated braces raise ValueError. -/
def substGo (vars : List (String × String)) : FmtMode → List Char → Except FmtErr (List Char)
  | .text, [] => .ok []
  | .text, c :: cs =>
    if c = lbrace then substGo vars .sawL cs
    else if c = rbrace then substGo vars .sawR cs
    else
      match substGo vars .text cs with
      | .ok out => .ok (c :: out)
      | .error e => .error e
  | .sawL, [] => .error (.valueError endOfStringMsg)
  | .sawL, c :: cs =>
    if c = lbrace then
      match substGo vars .text cs with
      | .ok out => .ok (lbrace :: out)
      | .error e => .error e
    else if c = rbrace then
      match List.lookup "" vars with
      | some v =>
        match substGo vars .text cs with
        | .ok out => .ok (v.data ++ out)
        | .error e => .error e
      | none => .error (.keyError "")
    else substGo vars (.field [c]) cs
  | .sawR, [] => .error (.valueError singleRbraceMsg)
  | .sawR, c :: cs =>
    if c = rbrace then
      match substGo vars .text cs with
      | .ok out => .ok (rbrace :: out)
      | .error e => .error e
    else .error (.valueError singleRbraceMsg)
  | .field _, [] => .error (.valueError endOfStringMsg)
  | .field acc, c :: cs =>
    if c = rbrace then
      match List.lookup (String.mk acc.reverse) vars with
      | some v =>
        match substGo vars .text cs with
        | .ok out => .ok (v.data ++ out)
        | .error e => .error e
      | none => .error (.keyError (String.mk acc.reverse))
    else if c = lbrace then .error (.valueError unexpectedLbraceMsg)
    else substGo vars (.field (c :: acc)) cs

deriving instance DecidableEq for Except

/-- Python `s.format(**vars)` on a whole string. -/
def formatSubst (s : String) (vars : List (String × String)) : Except FmtErr String :=
  match substGo vars .text s.data with
  | .ok cs => .ok (String.mk cs)
  | .error e => .error e

/-- Whether a format result is a ValueError (as opposed to success or a
KeyError); ValueError is the case `PromptManager._format_prompt` does not
catch. -/
def isValueErr : Except FmtErr String → Bool
  | .error (.valueError _) => true
  | _ => false

/-! ### Claim C1 and C10 theorems -/

/-- A well-formed message used as concrete input. -/
def c1Msg : Message := ⟨some "user", some (.vstr "m"), none⟩

/-- The store history after 21 `MemoryManager.add` calls with the default
`max_history = 20`. -/
def c1Hist : List Message := (List.replicate 21 c1Msg).foldl (mm_add 20) []

set_option maxRecDepth 4000 in
/-- C1: evidence of the code bug.  The claim says that with the default
maximum N = 20 the history owned by the MemoryManager never exceeds 20
entries and the oldest entry is evicted once per overflowing `add`.  In
the code, `MemoryManager.add` measures `len(self.store.get_history())`,
whose default `limit=20` caps the measured length at 20, so with
`max_history = 20` the eviction branch is dead: after 21 well-formed adds
the store holds all 21 messages (observable through
`get_history(limit=100)`), and nothing was ever evicted. -/
theorem memoryManager_overflow_keeps_growing :
    c1Hist.length = 21
    ∧ (mm_get_history c1Hist 100).length = 21
    ∧ (mm_get_history c1Hist 20).length = 20
    ∧ c1Hist = List.replicate 21 c1Msg := by
  refine ⟨?_, ?_, ?_, ?_⟩ <;> decide

/-- C10: for every stored history, `MemoryStore.get_history` (and hence
`MemoryManager.get_history`) with `limit = 0` returns the entire history,
because the Python slice `history[-0:]` is `history[0:]`. -/
theorem get_history_zero_returns_all :
    ∀ history : List Message,
      store_get_history history 0 = history ∧ mm_get_history history 0 = history := by
  intro history
  constructor <;> simp [store_get_history, mm_get_history, pySliceLast]

/-! ### PromptFormatter (src/agents/prompt.py) -/

/-- The three supported prompt format styles. -/
inductive PromptFormatType where
  | markdown : PromptFormatType
  | xml : PromptFormatType
  | plain : PromptFormatType
deriving DecidableEq

/-- One example pair (the dict with `input` and `output` keys). -/
structure PromptExample where
  input : String
  output : String
deriving DecidableEq

/-- The `PromptFormatter` constructor state: five optional sections plus a
format style; `examples or []` makes an omitted list empty. -/
structure PromptFormatter where
  role : Option String
  task : Option String
  guide : Option String
  output_format : Option String
  examples : List PromptExample
  format_type : PromptFormatType
deriving DecidableEq

/-- The `examples_str` block built inside `format_prompt` when
`self.examples` is non-empty: a header plus one numbered entry per
example (enumerate starts at 1). -/
def renderExamples (examples : List PromptExample) : String :=
  "Examples:\n" ++ String.join (examples.enum.map (fun ie =>
    "Example " ++ toString (ie.1 + 1) ++ "\nInput: " ++ ie.2.input ++
      "\nOutput: " ++ ie.2.output ++ "\n"))

/-- The ordered `sections` dict after filtering out `None` values: keys in
the fixed order ROLE, TASK, GUIDE, OUTPUT_FORMAT, EXAMPLES, USER_INPUT.
(Only defined relative to a non-empty examples list; with an empty list
the Python code dies earlier, see `format_prompt`.) -/
def sectionPairs (pf : PromptFormatter) (user_input : String) : List (String × String) :=
  ([("ROLE", pf.role), ("TASK", pf.task), ("GUIDE", pf.guide),
    ("OUTPUT_FORMAT", pf.output_format),
    ("EXAMPLES", some (renderExamples pf.examples)),
    ("USER_INPUT", some user_input)]).filterMap (fun kv => kv.2.map (fun v => (kv.1, v)))

/-- Section assembly per style.  Note the Python `plain` branch is
`"\n\n".join(sections)` where `sections` is a dict, and iterating a dict
yields its KEYS: the plain style joins the section names, not their
contents. -/
def assemblePrompt (pf : PromptFormatter) (user_input : String) : String :=
  match pf.format_type with
  | .plain =>
    String.intercalate "\n\n" ((sectionPairs pf user_input).map (fun kv => kv.1))
  | .markdown =>
    String.intercalate "\n\n"
      ((sectionPairs pf user_input).map (fun kv => "## " ++ kv.1 ++ "\n" ++ kv.2))
  | .xml =>
    String.intercalate "\n\n"
      ((sectionPairs pf user_input).map
        (fun kv => "<" ++ kv.1.toLower ++ ">" ++ kv.2 ++ "</" ++ kv.1.toLower ++ ">"))

/-- Python `repr` of a string-to-string dict, used in the
`"Variables missing: ..."` error message. -/
def pyReprVars (vars : List (String × String)) : String :=
  "\x7b" ++ String.intercalate ", "
    (vars.map (fun kv => squote ++ kv.1 ++ squote ++ ": " ++ squote ++ kv.2 ++ squote)) ++ "\x7d"

/-- `PromptFormatter.format_prompt`.  When `self.examples` is empty the
local `examples_str` is never assigned, yet the `sections` dict literal
reads it unconditionally, so the call raises UnboundLocalError.  When
`variables` is empty (or None) the substitution step is skipped entirely
(`if variables:`).  A KeyError from `str.format` is re-raised as
`ValueError("Variables missing: <variables>")`; other format errors
propagate unchanged. -/
def format_prompt (pf : PromptFormatter) (user_input : String)
    (vars : List (String × String)) : Except PyErr String :=
  if pf.examples.isEmpty then .error .unboundLocal
  else
    let prompt_str := assemblePrompt pf user_input
    if vars.isEmpty then .ok prompt_str
    else
      match formatSubst prompt_str vars with
      | .ok s => .ok s
      | .error (.keyError _) =>
        .error (.fmt (.valueError ("Variables missing: " ++ pyReprVars vars)))
      | .error (.valueError m) => .error (.fmt (.valueError m))

/-! ### PromptManager (src/agents/prompt.py) -/

/-- `PromptManager` state: the system-prompt template and the default
variable mapping supplied at construction. -/
structure PromptManager where
  system_prompt : String
  vars : List (String × String)
deriving DecidableEq

/-- `PromptManager._format_prompt`: `prompt.format(**vars)`, catching only
KeyError (returning the template unchanged); a ValueError from malformed
brace text propagates. -/
def pm_format_prompt (prompt : String) (vars : List (String × String)) : Except PyErr String :=
  match formatSubst prompt vars with
  | .ok s => .ok s
  | .error (.keyError _) => .ok prompt
  | .error (.valueError m) => .error (.fmt (.valueError m))

/-- The `default_messages` list pre-rendered at `PromptManager.__init__`:
one system message formatted with the default variables. -/
def pm_default_messages (pm : PromptManager) : Except PyErr (List Message) :=
  match pm_format_prompt pm.system_prompt pm.vars with
  | .ok s => .ok [⟨some "system", some (.vstr s), none⟩]
  | .error e => .error e

/-- Python dict merge `{**a}` followed by `a.update(b)`: values of `b`
override `a`, existing keys keep their position, new keys are appended. -/
def mergeVars (a b : List (String × String)) : List (String × String) :=
  a.map (fun kv => (kv.1, (List.lookup kv.1 b).getD kv.2)) ++
    b.filter (fun kv => (List.lookup kv.1 a).isNone)

/-- `PromptManager.get_messages`: pre-rendered system message, then the
history if non-empty (`if history:`), then one user message rendered from
`user_input` under defaults merged with call-time variables. -/
def get_messages (pm : PromptManager) (user_input : String) (history : List Message)
    (vars : List (String × String)) : Except PyErr (List Message) :=
  match pm_default_messages pm with
  | .error e => .error e
  | .ok dm =>
    let messages := if history.isEmpty then dm else dm ++ history
    match pm_format_prompt user_input (mergeVars pm.vars vars) with
    | .error e => .error e
    | .ok formatted_input =>
      .ok (messages ++ [⟨some "user", some (.vstr formatted_input), none⟩])

/-! ### Scanner lemmas used for the prompt claims -/

/-- A string with no brace characters at all. -/
def braceFree (s : String) : Bool :=
  s.data.all (fun c => (c != lbrace) && (c != rbrace))

theorem braceFree_forall {s : String} (h : braceFree s = true) :
    ∀ c ∈ s.data, c ≠ lbrace ∧ c ≠ rbrace := by
  intro c hc
  have h2 := List.all_eq_true.mp h c hc
  simp only [Bool.and_eq_true, bne_iff_ne, ne_eq] at h2
  exact h2

theorem strDataAppend (a b : String) : (a ++ b).data = a.data ++ b.data := by
  cases a
  cases b
  rfl

/-- Scanning a brace-free prefix just copies it. -/
theorem substGo_text_append (vars : List (String × String)) (s rest : List Char)
    (h : ∀ c ∈ s, c ≠ lbrace ∧ c ≠ rbrace) :
    substGo vars .text (s ++ rest) =
      match substGo vars .text rest with
      | .ok out => .ok (s ++ out)
      | .error e => .error e := by
  induction s with
  | nil =>
    cases hr : substGo vars .text rest <;> simp [hr]
  | cons c cs ih =>
    have hc : c ≠ lbrace ∧ c ≠ rbrace := h c (by simp)
    have hcs : ∀ x ∈ cs, x ≠ lbrace ∧ x ≠ rbrace := fun x hx => h x (by simp [hx])
    rw [List.cons_append]
    simp only [substGo, if_neg hc.1, if_neg hc.2, ih hcs]
    cases hr : substGo vars .text rest <;> simp

/-- Reading a brace-free field name up to its closing brace performs the
lookup of the accumulated name. -/
theorem substGo_field_read (vars : List (String × String)) (nd acc rest : List Char)
    (h : ∀ c ∈ nd, c ≠ lbrace ∧ c ≠ rbrace) :
    substGo vars (.field acc) (nd ++ rbrace :: rest) =
      match List.lookup (String.mk (acc.reverse ++ nd)) vars with
      | some v =>
        match substGo vars .text rest with
        | .ok out => .ok (v.data ++ out)
        | .error e => .error e
      | none => .error (.keyError (String.mk (acc.reverse ++ nd))) := by
  induction nd generalizing acc with
  | nil =>
    simp [substGo]
  | cons c nd ih =>
    have hc : c ≠ lbrace ∧ c ≠ rbrace := h c (by simp)
    have hnd : ∀ x ∈ nd, x ≠ lbrace ∧ x ≠ rbrace := fun x hx => h x (by simp [hx])
    rw [List.cons_append]
    simp only [substGo, if_neg hc.2, if_neg hc.1]
    rw [ih (c :: acc) hnd]
    simp [List.reverse_cons, List.append_assoc]

/-! ### Claims C5, C6, C7, C8 -/

/-- C5: the claim says `format_prompt` on a formatter constructed with
`examples=[]` never fails and renders a prompt with no examples section.
The code instead raises UnboundLocalError for every such call, because
`examples_str` is assigned only inside `if self.examples:` yet is read
unconditionally when building the sections dict.  This theorem evaluates
the code at a failing input. -/
theorem format_prompt_empty_examples_fails :
    format_prompt ⟨some "r", some "t", none, none, [], .markdown⟩ "hi" [] =
      .error .unboundLocal := rfl

/-- Concrete formatter with two present sections, one example, plain style. -/
def pfC7 : PromptFormatter := ⟨some "R", some "T", none, none, [⟨"i", "o"⟩], .plain⟩

/-- C7: the claim says the plain style renders the bare section contents
joined by blank lines.  The code executes `"\n\n".join(sections)` on the
sections dict, which joins the KEYS: all contents (role text, task text,
examples, and the user input) are discarded.  This theorem evaluates the
code at a failing input: the result contains only the section names. -/
theorem format_prompt_plain_joins_names :
    format_prompt pfC7 "hello" [] = .ok "ROLE\n\nTASK\n\nEXAMPLES\n\nUSER_INPUT" := by
  decide

/-- Formatter whose TASK section is the single placeholder for key `x`. -/
def pfC6 : PromptFormatter := ⟨none, some "\x7bx\x7d", none, none, [⟨"i", "o"⟩], .markdown⟩

/-- C6 counterexample: the claim says that for EVERY supplied variable
mapping lacking a key for a placeholder, `format_prompt` raises.  With the
empty mapping (which lacks the key `x`) the code skips substitution
entirely (`if variables:`) and returns the prompt with the placeholder
left in place — no error. -/
theorem format_prompt_empty_vars_no_error :
    format_prompt pfC6 "u" [] =
      .ok "## TASK\n\x7bx\x7d\n\n## EXAMPLES\nExamples:\nExample 1\nInput: i\nOutput: o\n\n\n## USER_INPUT\nu" := by
  decide

/-- C6 (amended): for every formatter with a non-empty examples list whose
assembled prompt contains a `\x7bname\x7d` placeholder (brace-free prefix
and name) and every NON-EMPTY variable mapping lacking that name,
`format_prompt` raises `ValueError("Variables missing: <mapping>")`
naming the supplied mapping. -/
theorem format_prompt_missing_key_raises
    (pf : PromptFormatter) (user_input name s1 s2 : String) (vars : List (String × String))
    (hex : pf.examples ≠ [])
    (hsplit : assemblePrompt pf user_input =
      s1 ++ (String.mk (lbrace :: (name.data ++ [rbrace])) ++ s2))
    (hs1 : braceFree s1 = true)
    (hn : braceFree name = true)
    (hne : name.data ≠ [])
    (hlook : List.lookup name vars = none)
    (hv : vars ≠ []) :
    format_prompt pf user_input vars =
      .error (.fmt (.valueError ("Variables missing: " ++ pyReprVars vars))) := by
  obtain ⟨d, nd, hdn⟩ : ∃ d nd, name.data = d :: nd := by
    cases hq : name.data with
    | nil => exact absurd hq hne
    | cons d nd => exact ⟨d, nd, rfl⟩
  have hd : d ≠ lbrace ∧ d ≠ rbrace := braceFree_forall hn d (by rw [hdn]; simp)
  have hnd : ∀ x ∈ nd, x ≠ lbrace ∧ x ≠ rbrace := fun x hx =>
    braceFree_forall hn x (by rw [hdn]; simp [hx])
  have hsub : formatSubst (assemblePrompt pf user_input) vars = .error (.keyError name) := by
    rw [hsplit]
    unfold formatSubst
    rw [strDataAppend, strDataAppend]
    rw [substGo_text_append vars s1.data _ (braceFree_forall hs1)]
    have hinner : substGo vars .text
        ((String.mk (lbrace :: (name.data ++ [rbrace]))).data ++ s2.data) =
        .error (.keyError name) := by
      show substGo vars .text ((lbrace :: (name.data ++ [rbrace])) ++ s2.data) =
        .error (.keyError name)
      rw [hdn]
      simp only [List.cons_append, List.append_assoc, List.singleton_append, List.nil_append]
      simp [substGo, hd.1, hd.2]
      rw [substGo_field_read vars nd [d] s2.data hnd]
      have hkey : String.mk (List.reverse [d] ++ nd) = name := by
        show String.mk (d :: nd) = name
        rw [← hdn]
      rw [hkey, hlook]
    rw [hinner]
  have hexb : pf.examples.isEmpty = false := by
    cases hq : pf.examples with
    | nil => exact absurd hq hex
    | cons a l => rfl
  have hvb : vars.isEmpty = false := by
    cases hq : vars with
    | nil => exact absurd hq hv
    | cons a l => rfl
  simp [format_prompt, hexb, hvb, hsub]

/-- C6 witness: the amended theorem applied at a concrete formatter and a
concrete non-empty mapping lacking the placeholder key. -/
theorem format_prompt_missing_key_raises_witness :
    format_prompt pfC6 "u" [("y", "2")] =
      .error (.fmt (.valueError ("Variables missing: " ++ pyReprVars [("y", "2")]))) :=
  format_prompt_missing_key_raises pfC6 "u" "x" "## TASK\n"
    "\n\n## EXAMPLES\nExamples:\nExample 1\nInput: i\nOutput: o\n\n\n## USER_INPUT\nu"
    [("y", "2")] (by decide) (by decide) (by decide) (by decide) (by decide)
    (by decide) (by decide)

/-- PromptManager with a brace-free system prompt and no variables. -/
def pmC8 : PromptManager := ⟨"sys", []⟩

/-- C8 counterexample: the claim quantifies over EVERY user_input, but for
a user turn whose template has malformed brace text (a bare closing
brace) the substitution raises ValueError, which `_format_prompt` does
not catch (it catches only KeyError), so `get_messages` raises instead of
returning a message list. -/
theorem get_messages_malformed_template_raises :
    get_messages pmC8 "\x7d" [] [] = .error (.fmt (.valueError singleRbraceMsg)) := by
  decide

/-- C8 (amended): for every PromptManager whose system message rendered at
construction time, every history, every call-time mapping, and every
user_input whose template does not raise ValueError during substitution,
`get_messages` returns the pre-rendered system message, then the history
verbatim, then exactly one user message rendered from `user_input` with
the default variables overridden by the call-time variables, falling back
to the unsubstituted template text when a placeholder cannot be resolved
(KeyError). -/
theorem get_messages_shape
    (pm : PromptManager) (user_input : String) (history : List Message)
    (vars : List (String × String)) (dm : List Message)
    (hdm : pm_default_messages pm = .ok dm)
    (hok : isValueErr (formatSubst user_input (mergeVars pm.vars vars)) = false) :
    get_messages pm user_input history vars =
      .ok (dm ++ history ++
        [⟨some "user",
          some (.vstr (match formatSubst user_input (mergeVars pm.vars vars) with
            | .ok s => s
            | .error _ => user_input)), none⟩]) := by
  unfold get_messages
  rw [hdm]
  cases hsub : formatSubst user_input (mergeVars pm.vars vars) with
  | ok s =>
    simp only [pm_format_prompt, hsub]
    cases history <;> simp
  | error e =>
    cases e with
    | keyError k =>
      simp only [pm_format_prompt, hsub]
      cases history <;> simp
    | valueError m =>
      rw [hsub] at hok
      simp [isValueErr] at hok

/-- PromptManager with one default variable, for the C8 witness. -/
def pmC8w : PromptManager := ⟨"sys", [("a", "1")]⟩

/-- A history message used in the C8 witness. -/
def histMsgC8 : Message := ⟨some "assistant", some (.vstr "old"), none⟩

/-- C8 witness: the amended theorem applied at a concrete manager, history
and call-time mapping; the call-time value overrides the default. -/
theorem get_messages_shape_witness :
    get_messages pmC8w "hi \x7ba\x7d" [histMsgC8] [("a", "2")] =
      .ok [⟨some "system", some (.vstr "sys"), none⟩, histMsgC8,
        ⟨some "user", some (.vstr "hi 2"), none⟩] :=
  (get_messages_shape pmC8w "hi \x7ba\x7d" [histMsgC8] [("a", "2")]
    [⟨some "system", some (.vstr "sys"), none⟩] (by decide) (by decide)).trans (by decide)

/-! ### Tools and the agent loop (src/tools/tool.py, src/agents/agent.py) -/

/-- A declared tool: its type name (`t.__class__.__name__`) and its
asynchronous entry point `arun`, which may raise. -/
structure Tool where
  className : String
  arun : List (String × String) → Except PyErr String

/-- Python `str.lower()` (character-wise; the class names involved are
ASCII). -/
def pyLower (s : String) : String := String.mk (s.data.map Char.toLower)

/-- The resolution step of `Agent.handle_tool_calls`: the first declared
tool whose lowercased type name equals the requested name exactly (the
requested name itself is NOT lowercased by the code). -/
def findTool (tools : List Tool) (tool_name : String) : Option Tool :=
  tools.find? (fun t => pyLower t.className == tool_name)

/-- `Agent.handle_tool_calls`: resolve each request in order; execute a
matched tool with the request's argument mapping; a request matching no
declared tool contributes no result and raises nothing; a raising tool
aborts the round. -/
def handle_tool_calls (tools : List Tool) : List ToolCall → Except PyErr (List String)
  | [] => .ok []
  | c :: cs =>
    match findTool tools c.function.name with
    | none => handle_tool_calls tools cs
    | some t =>
      match t.arun c.function.arguments with
      | .error e => .error e
      | .ok r =>
        match handle_tool_calls tools cs with
        | .error e => .error e
        | .ok rs => .ok (r :: rs)

/-- Python `repr` of a plain string (quoting only; the tool results used
here contain no characters needing escapes). -/
def pyReprStr (s : String) : String := squote ++ s ++ squote

/-- Python `str(...)` of a list of tool-result strings. -/
def pyStrList (xs : List String) : String :=
  "[" ++ String.intercalate ", " (xs.map pyReprStr) ++ "]"

/-- The assistant message appended inside the aprocess loop, carrying the
response content and its tool calls. -/
def assistantToolMsg (r : LLMResponse) : Message :=
  ⟨some "assistant", some (.vstr r.content), some r.tool_calls⟩

/-- The tool-role message appended inside the aprocess loop, whose content
is `str(tool_results)`. -/
def toolResultMsg (results : List String) : Message :=
  ⟨some "tool", some (.vstr (pyStrList results)), none⟩

/-- Outcome of the aprocess while-loop: the terminal response or error,
the final local message list, the number of backend invocations made, and
the number of tool results produced. -/
structure LoopOut where
  result : Except PyErr LLMResponse
  msgs : List Message
  backendCalls : Nat
  toolResults : Nat

/-- The `while True` loop of `Agent.aprocess`, with the backend modelled
as a script of outcomes consumed one per invocation (an exhausted script
models a failing invocation).  A response with no tool calls is terminal;
otherwise the matched tools run, and only then the assistant message and
the tool-result message are appended before the next invocation. -/
def aprocessLoop (tools : List Tool) :
    List (Except PyErr LLMResponse) → List Message → Nat → Nat → LoopOut
  | [], msgs, nb, nt => ⟨.error (.exc "backend stub exhausted"), msgs, nb, nt⟩
  | .error e :: _, msgs, nb, nt => ⟨.error e, msgs, nb + 1, nt⟩
  | .ok response :: rest, msgs, nb, nt =>
    if response.tool_calls.isEmpty then ⟨.ok response, msgs, nb + 1, nt⟩
    else
      match handle_tool_calls tools response.tool_calls with
      | .error e => ⟨.error e, msgs, nb + 1, nt⟩
      | .ok tool_results =>
        aprocessLoop tools rest
          (msgs ++ [assistantToolMsg response, toolResultMsg tool_results])
          (nb + 1) (nt + tool_results.length)

/-- Outcome of one full `Agent.aprocess` turn. -/
structure AProcOut where
  result : Except PyErr Val
  history : List Message
  backendCalls : Nat
  toolResults : Nat
  loopMsgs : List Message

/-- `Agent.aprocess`: build the message sequence from the prompt manager
and the current history view (`get_history()`, default limit 20), run the
loop, and only after a terminal response append the user message and an
assistant message whose content is the WHOLE response object to memory;
the returned value is the response object itself (`return response`).
Any error leaves the history untouched. -/
def agent_aprocess (tools : List Tool) (script : List (Except PyErr LLMResponse))
    (pm : PromptManager) (max_history : Nat) (hist0 : List Message)
    (user_input : String) : AProcOut :=
  match get_messages pm user_input (mm_get_history hist0 20) [] with
  | .error e => ⟨.error e, hist0, 0, 0, []⟩
  | .ok messages =>
    let out := aprocessLoop tools script messages 0 0
    match out.result with
    | .error e => ⟨.error e, hist0, out.backendCalls, out.toolResults, out.msgs⟩
    | .ok response =>
      ⟨.ok (.vresp response),
       mm_add max_history
         (mm_add max_history hist0 ⟨some "user", some (.vstr user_input), none⟩)
         ⟨some "assistant", some (.vresp response), none⟩,
       out.backendCalls, out.toolResults, out.msgs⟩

/-- `Agent.process` (synchronous): a single backend invocation with no
tool resolution; its outcome is passed in directly.  Memory is updated
only on success. -/
def agent_process (resp : Except PyErr Val) (pm : PromptManager) (max_history : Nat)
    (hist0 : List Message) (user_input : String) : Except PyErr Val × List Message :=
  match get_messages pm user_input (mm_get_history hist0 20) [] with
  | .error e => (.error e, hist0)
  | .ok _messages =>
    match resp with
    | .error e => (.error e, hist0)
    | .ok r =>
      (.ok r,
       mm_add max_history
         (mm_add max_history hist0 ⟨some "user", some (.vstr user_input), none⟩)
         ⟨some "assistant", some r, none⟩)

/-! ### ReactAgent (src/agents/react_agent.py) -/

/-- The termination sentinel of `ReactAgent.process`. -/
def marker : String := "[FINAL ANSWER]"

/-- Does the pattern occur at the head of the list? -/
def leadMatch : List Char → List Char → Bool
  | [], _ => true
  | _ :: _, [] => false
  | p :: ps, c :: cs => p == c && leadMatch ps cs

/-- Does the pattern occur anywhere in the list?  Models Python substring
containment `pat in s` (for non-empty `pat`). -/
def hasSubList (pat : List Char) : List Char → Bool
  | [] => pat.isEmpty
  | c :: cs => leadMatch pat (c :: cs) || hasSubList pat cs

/-- Python `marker in response`. -/
def containsMarker (s : String) : Bool := hasSubList marker.data s.data

/-- Consume the pattern from the head of the list, if it is there. -/
def dropLead : List Char → List Char → Option (List Char)
  | [], s => some s
  | _ :: _, [] => none
  | p :: ps, c :: cs => if p == c then dropLead ps cs else none

/-- Fuel-driven body of `pyReplace`: replace non-overlapping occurrences
left to right.  The fuel (initially the string length) only serves
structural termination; for a non-empty pattern it never runs out. -/
def replaceFuel (pat rep : List Char) : Nat → List Char → List Char
  | 0, s => s
  | _ + 1, [] => []
  | fuel + 1, c :: cs =>
    match dropLead pat (c :: cs) with
    | some rest => rep ++ replaceFuel pat rep fuel rest
    | none => c :: replaceFuel pat rep fuel cs

/-- Python `s.replace(pat, rep)` for a non-empty pattern. -/
def pyReplace (s pat rep : String) : String :=
  String.mk (replaceFuel pat.data rep.data s.data.length s.data)

/-- The whitespace characters removed by Python `str.strip()`. -/
def isSpaceChar (c : Char) : Bool :=
  c == ' ' || c == '\t' || c == '\n' || c == '\r' || c == '\x0b' || c == '\x0c'

/-- Python `s.strip()`: remove leading and trailing whitespace. -/
def pyStrip (s : String) : String :=
  String.mk (((s.data.dropWhile isSpaceChar).reverse.dropWhile isSpaceChar).reverse)

/-- The terminal content of `ReactAgent.process`:
`response.replace("[FINAL ANSWER]", "").strip()`. -/
def stripMarker (response : String) : String :=
  pyStrip (pyReplace response marker "")

/-- The `while True` loop of `ReactAgent.process`: a response containing
the marker is terminal and yields the stripped answer; any other response
is appended verbatim as an assistant message before the next invocation. -/
def reactLoop :
    List (Except PyErr String) → List Message → Nat →
      Except PyErr String × List Message × Nat
  | [], msgs, nb => (.error (.exc "backend stub exhausted"), msgs, nb)
  | .error e :: _, msgs, nb => (.error e, msgs, nb + 1)
  | .ok response :: rest, msgs, nb =>
    if containsMarker response then (.ok (stripMarker response), msgs, nb + 1)
    else
      reactLoop rest (msgs ++ [⟨some "assistant", some (.vstr response), none⟩]) (nb + 1)

/-- Outcome of one full `ReactAgent.process` turn. -/
structure ReactOut where
  result : Except PyErr String
  history : List Message
  backendCalls : Nat
  loopMsgs : List Message

/-- `ReactAgent.process`: build the message sequence, loop until a
response contains the marker, then (and only then) update memory with the
user input and the stripped final answer. -/
def react_process (script : List (Except PyErr String)) (pm : PromptManager)
    (max_history : Nat) (hist0 : List Message) (user_input : String) : ReactOut :=
  match get_messages pm user_input (mm_get_history hist0 20) [] with
  | .error e => ⟨.error e, hist0, 0, []⟩
  | .ok messages =>
    let out := reactLoop script messages 0
    match out.1 with
    | .error e => ⟨.error e, hist0, out.2.2, out.2.1⟩
    | .ok final_answer =>
      ⟨.ok final_answer,
       mm_add max_history
         (mm_add max_history hist0 ⟨some "user", some (.vstr user_input), none⟩)
         ⟨some "assistant", some (.vstr final_answer), none⟩,
       out.2.2, out.2.1⟩

/-! ### Claims C2, C3, C4, C9 -/

/-- A tool whose lowercased type name is `echo`. -/
def echoTool : Tool := ⟨"Echo", fun _ => .ok "tool-result"⟩

/-- A request that resolves to `echoTool`. -/
def cEcho : ToolCall := ⟨⟨"echo", [("a", "1")]⟩⟩

/-- A request naming no declared tool. -/
def cMiss : ToolCall := ⟨⟨"nosuch", []⟩⟩

/-- C3 (amended): for every declared tool list and every request list in
one resolution round, provided each request that resolves executes
without raising, `handle_tool_calls` resolves each requested name to the
first tool whose lowercased declared type name equals the requested name
exactly, executes matched tools in request order with the request's
argument mapping, produces their results in request order, and a request
matching no tool contributes no result and raises no error. -/
theorem handle_tool_calls_order_and_drop
    (tools : List Tool) (calls : List ToolCall) (f : ToolCall → String)
    (h : ∀ c ∈ calls, ∀ t, findTool tools c.function.name = some t →
      t.arun c.function.arguments = .ok (f c)) :
    handle_tool_calls tools calls =
      .ok (calls.filterMap (fun c => (findTool tools c.function.name).map (fun _ => f c))) := by
  induction calls with
  | nil => rfl
  | cons c cs ih =>
    have hcs : ∀ x ∈ cs, ∀ t, findTool tools x.function.name = some t →
        t.arun x.function.arguments = .ok (f x) := fun x hx => h x (by simp [hx])
    cases hfind : findTool tools c.function.name with
    | none => simp [handle_tool_calls, hfind, ih hcs]
    | some t =>
      have harun := h c (by simp) t hfind
      simp [handle_tool_calls, hfind, harun, ih hcs]

/-- C3 witness: the amended theorem applied at a concrete tool list and a
round with one matching and one unmatched request; exactly the matched
request yields a result. -/
theorem handle_tool_calls_order_and_drop_witness :
    handle_tool_calls [echoTool] [cEcho, cMiss] = .ok ["tool-result"] := by
  have hyp : ∀ c ∈ [cEcho, cMiss], ∀ t, findTool [echoTool] c.function.name = some t →
      t.arun c.function.arguments = .ok ((fun _ => "tool-result") c) := by
    intro c hc t hfind
    simp only [List.mem_cons, List.not_mem_nil, or_false] at hc
    rcases hc with rfl | rfl
    · have he : findTool [echoTool] cEcho.function.name = some echoTool := rfl
      rw [he] at hfind
      cases hfind
      rfl
    · have hn : findTool [echoTool] cMiss.function.name = none := rfl
      rw [hn] at hfind
      cases hfind
  exact (handle_tool_calls_order_and_drop [echoTool] [cEcho, cMiss]
    (fun _ => "tool-result") hyp).trans rfl

/-- A tool whose declared type name is mixed case. -/
def calcTool : Tool := ⟨"Calc", fun _ => .ok "res"⟩

/-- C3 counterexample: the claim says resolution is a case-insensitive
match against the declared identifier.  The request name `CALC` and the
declared name `Calc` are equal case-insensitively, yet the code produces
no result for the request (the code lowercases only the declared name and
compares it to the request name verbatim). -/
theorem tool_match_not_case_insensitive :
    (pyLower "CALC" == pyLower "Calc") = true
    ∧ handle_tool_calls [calcTool] [⟨⟨"CALC", []⟩⟩] = .ok [] := ⟨rfl, rfl⟩

/-- C2 (amended): for a backend script that answers one tool-call request
and then a terminal response, with the requested tool declared and
succeeding, `Agent.aprocess` makes exactly two backend invocations,
produces exactly one tool result, appends exactly one assistant message
and one tool-result message to the local message sequence, and returns
the terminal response OBJECT (whose `content` field carries the terminal
content), not the bare content string. -/
theorem aprocess_tool_cycle
    (tools : List Tool) (t : Tool) (c : ToolCall) (r1 r2 : LLMResponse) (res : String)
    (pm : PromptManager) (h0 : List Message) (u : String) (msgs0 : List Message)
    (hmsgs : get_messages pm u (mm_get_history h0 20) [] = .ok msgs0)
    (h1 : r1.tool_calls = [c])
    (hfind : findTool tools c.function.name = some t)
    (harun : t.arun c.function.arguments = .ok res)
    (h2 : r2.tool_calls = []) :
    (agent_aprocess tools [.ok r1, .ok r2] pm 20 h0 u).backendCalls = 2
    ∧ (agent_aprocess tools [.ok r1, .ok r2] pm 20 h0 u).toolResults = 1
    ∧ (agent_aprocess tools [.ok r1, .ok r2] pm 20 h0 u).loopMsgs
        = msgs0 ++ [assistantToolMsg r1, toolResultMsg [res]]
    ∧ (agent_aprocess tools [.ok r1, .ok r2] pm 20 h0 u).result = .ok (.vresp r2) := by
  have hhtc : handle_tool_calls tools [c] = .ok [res] := by
    simp [handle_tool_calls, hfind, harun]
  have hloop : aprocessLoop tools [.ok r1, .ok r2] msgs0 0 0 =
      ⟨.ok r2, msgs0 ++ [assistantToolMsg r1, toolResultMsg [res]], 2, 1⟩ := by
    simp [aprocessLoop, h1, h2, hhtc]
  refine ⟨?_, ?_, ?_, ?_⟩ <;> simp [agent_aprocess, hmsgs, hloop]

/-- The first scripted response: content plus one tool-call request. -/
def r1C2 : LLMResponse := ⟨"thinking", [cEcho]⟩

/-- The terminal scripted response: no tool calls. -/
def r2C2 : LLMResponse := ⟨"done", []⟩

/-- A prompt manager with a plain system prompt and no variables. -/
def pmC2 : PromptManager := ⟨"sys", []⟩

/-- C2 witness: the amended theorem applied at a concrete tool, script and
prompt manager. -/
theorem aprocess_tool_cycle_witness :
    (agent_aprocess [echoTool] [.ok r1C2, .ok r2C2] pmC2 20 [] "hi").backendCalls = 2
    ∧ (agent_aprocess [echoTool] [.ok r1C2, .ok r2C2] pmC2 20 [] "hi").toolResults = 1
    ∧ (agent_aprocess [echoTool] [.ok r1C2, .ok r2C2] pmC2 20 [] "hi").loopMsgs
        = [⟨some "system", some (.vstr "sys"), none⟩, ⟨some "user", some (.vstr "hi"), none⟩]
          ++ [assistantToolMsg r1C2, toolResultMsg ["tool-result"]]
    ∧ (agent_aprocess [echoTool] [.ok r1C2, .ok r2C2] pmC2 20 [] "hi").result
        = .ok (.vresp r2C2) :=
  aprocess_tool_cycle [echoTool] echoTool cEcho r1C2 r2C2 "tool-result" pmC2 [] "hi"
    [⟨some "system", some (.vstr "sys"), none⟩, ⟨some "user", some (.vstr "hi"), none⟩]
    (by decide) rfl rfl rfl rfl

/-- C2 counterexample: the claim says the loop returns the terminal
response's CONTENT to the caller.  The code executes `return response`,
so the caller receives the structured response object, which is not the
content string (`"done"`). -/
theorem aprocess_returns_response_object :
    (agent_aprocess [echoTool] [.ok r1C2, .ok r2C2] pmC2 20 [] "hi").result
      = .ok (.vresp r2C2)
    ∧ Val.vresp r2C2 ≠ Val.vstr r2C2.content := by
  constructor
  · rfl
  · decide

/-- C4: in every turn of `Agent.aprocess`, `Agent.process` and
`ReactAgent.process`, if the turn fails (backend invocation error, tool
execution error, or prompt-formatting error) the conversation history is
left exactly as it was before the turn (history is updated only after a
terminal response), and a failing backend invocation propagates
immediately: the loop neither retries it nor consumes any further
scripted outcome. -/
theorem turn_failure_preserves_history :
    (∀ tools script pm mh h0 u e,
      (agent_aprocess tools script pm mh h0 u).result = .error e →
      (agent_aprocess tools script pm mh h0 u).history = h0)
    ∧ (∀ resp pm mh h0 u e,
      (agent_process resp pm mh h0 u).1 = .error e →
      (agent_process resp pm mh h0 u).2 = h0)
    ∧ (∀ script pm mh h0 u e,
      (react_process script pm mh h0 u).result = .error e →
      (react_process script pm mh h0 u).history = h0)
    ∧ (∀ tools e rest msgs nb nt,
      aprocessLoop tools (.error e :: rest) msgs nb nt = ⟨.error e, msgs, nb + 1, nt⟩)
    ∧ (∀ e rest msgs nb,
      reactLoop (.error e :: rest) msgs nb = (.error e, msgs, nb + 1)) := by
  refine ⟨?_, ?_, ?_, ?_, ?_⟩
  · intro tools script pm mh h0 u e hres
    unfold agent_aprocess at hres ⊢
    cases hg : get_messages pm u (mm_get_history h0 20) [] with
    | error e2 => simp
    | ok messages =>
      simp only [hg] at hres ⊢
      cases hl : (aprocessLoop tools script messages 0 0).result with
      | error e2 => simp [hl]
      | ok r => simp [hl] at hres
  · intro resp pm mh h0 u e hres
    unfold agent_process at hres ⊢
    cases hg : get_messages pm u (mm_get_history h0 20) [] with
    | error e2 => simp
    | ok messages =>
      simp only [hg] at hres ⊢
      cases resp with
      | error e2 => simp
      | ok r => simp at hres
  · intro script pm mh h0 u e hres
    unfold react_process at hres ⊢
    cases hg : get_messages pm u (mm_get_history h0 20) [] with
    | error e2 => simp
    | ok messages =>
      simp only [hg] at hres ⊢
      cases hl : (reactLoop script messages 0).1 with
      | error e2 => simp [hl]
      | ok r => simp [hl] at hres
  · intro tools e rest msgs nb nt
    rfl
  · intro e rest msgs nb
    rfl

/-- C4 witness: the theorem applied to turns whose single backend
invocation fails: the prior history (one message) is untouched in all
three entry points. -/
theorem turn_failure_preserves_history_witness :
    (agent_aprocess [] [.error (.exc "boom")] pmC2 20 [c1Msg] "hi").history = [c1Msg]
    ∧ (agent_process (.error (.exc "boom")) pmC2 20 [c1Msg] "hi").2 = [c1Msg]
    ∧ (react_process [.error (.exc "boom")] pmC2 20 [c1Msg] "hi").history = [c1Msg] :=
  ⟨turn_failure_preserves_history.1 [] [.error (.exc "boom")] pmC2 20 [c1Msg] "hi"
      (.exc "boom") rfl,
   turn_failure_preserves_history.2.1 (.error (.exc "boom")) pmC2 20 [c1Msg] "hi"
      (.exc "boom") rfl,
   turn_failure_preserves_history.2.2.1 [.error (.exc "boom")] pmC2 20 [c1Msg] "hi"
      (.exc "boom") rfl⟩

/-- The loop of `ReactAgent.process` across any run of non-terminal
responses followed by a marker-bearing one. -/
theorem reactLoop_run (pre : List String) (fin : String)
    (rest : List (Except PyErr String)) (msgs : List Message) (nb : Nat)
    (hpre : ∀ s ∈ pre, containsMarker s = false)
    (hfin : containsMarker fin = true) :
    reactLoop (pre.map .ok ++ .ok fin :: rest) msgs nb =
      (.ok (stripMarker fin),
       msgs ++ pre.map (fun s => ⟨some "assistant", some (.vstr s), none⟩),
       nb + (pre.length + 1)) := by
  induction pre generalizing msgs nb with
  | nil => simp [reactLoop, hfin]
  | cons s pre ih =>
    have hs : containsMarker s = false := hpre s (by simp)
    have hpre2 : ∀ x ∈ pre, containsMarker x = false := fun x hx => hpre x (by simp [hx])
    simp only [List.map_cons, List.cons_append, reactLoop, hs, Bool.false_eq_true, if_false,
      List.append_eq]
    rw [ih _ _ hpre2]
    simp only [Prod.mk.injEq, List.length_cons]
    refine ⟨trivial, by simp, by omega⟩

/-- C9: for every run of `ReactAgent.process` whose scripted responses
are some non-terminal texts followed by one containing `[FINAL ANSWER]`,
the loop terminates exactly at the marker-bearing response; the returned
value is that text with the marker removed and surrounding whitespace
trimmed; every non-terminal response was appended verbatim as an
assistant message before the next invocation; and the history is updated
with the user input and the stripped answer only at termination. -/
theorem react_process_marker_termination
    (pre : List String) (fin : String) (rest : List (Except PyErr String))
    (pm : PromptManager) (h0 : List Message) (u : String) (msgs0 : List Message)
    (hmsgs : get_messages pm u (mm_get_history h0 20) [] = .ok msgs0)
    (hpre : ∀ s ∈ pre, containsMarker s = false)
    (hfin : containsMarker fin = true) :
    (react_process (pre.map .ok ++ .ok fin :: rest) pm 20 h0 u).result
        = .ok (stripMarker fin)
    ∧ (react_process (pre.map .ok ++ .ok fin :: rest) pm 20 h0 u).backendCalls
        = pre.length + 1
    ∧ (react_process (pre.map .ok ++ .ok fin :: rest) pm 20 h0 u).loopMsgs
        = msgs0 ++ pre.map (fun s => ⟨some "assistant", some (.vstr s), none⟩)
    ∧ (react_process (pre.map .ok ++ .ok fin :: rest) pm 20 h0 u).history
        = mm_add 20 (mm_add 20 h0 ⟨some "user", some (.vstr u), none⟩)
            ⟨some "assistant", some (.vstr (stripMarker fin)), none⟩ := by
  have hloop := reactLoop_run pre fin rest msgs0 0 hpre hfin
  refine ⟨?_, ?_, ?_, ?_⟩ <;> simp [react_process, hmsgs, hloop]

/-- C9 witness: the theorem applied to a concrete script of one thought
and one final answer: two backend calls, the thought appended as an
assistant turn, and `"42"` returned and recorded. -/
theorem react_process_marker_termination_witness :
    (react_process [.ok "Thought: step", .ok "[FINAL ANSWER] 42"] pmC2 20 [] "hi").result
        = .ok "42"
    ∧ (react_process [.ok "Thought: step", .ok "[FINAL ANSWER] 42"] pmC2 20 [] "hi").backendCalls
        = 2
    ∧ (react_process [.ok "Thought: step", .ok "[FINAL ANSWER] 42"] pmC2 20 [] "hi").loopMsgs
        = [⟨some "system", some (.vstr "sys"), none⟩, ⟨some "user", some (.vstr "hi"), none⟩,
           ⟨some "assistant", some (.vstr "Thought: step"), none⟩]
    ∧ (react_process [.ok "Thought: step", .ok "[FINAL ANSWER] 42"] pmC2 20 [] "hi").history
        = [⟨some "user", some (.vstr "hi"), none⟩,
           ⟨some "assistant", some (.vstr "42"), none⟩] := by
  have h := react_process_marker_termination ["Thought: step"] "[FINAL ANSWER] 42" [] pmC2 []
    "hi" [⟨some "system", some (.vstr "sys"), none⟩, ⟨some "user", some (.vstr "hi"), none⟩]
    (by decide) (by decide) (by decide)
  exact ⟨h.1.trans (by decide), h.2.1, h.2.2.1.trans (by decide), h.2.2.2.trans (by decide)⟩

end AgentSuite
